import Mathlib

/-!
Shallow embedding of the session/token lifecycle manager of
vscode-redhat-account (src/src/authentication-service.ts and the provider
wrapper in src/src/extension.ts), together with theorems settling the
frozen claims about it.

Conventions of the embedding:
- JavaScript objects become structures; undefined or optional fields become
  Option.
- The mutable fields of RedHatAuthenticationService (the _tokens array and
  the _refreshTimeouts Map) become an explicit AuthState record that every
  operation threads through.
- setTimeout handles are modelled by TimerRec records. A timer that has been
  armed and neither cancelled nor fired is live; _refreshTimeouts is a list
  of (sessionId, handle) pairs with Map semantics. Firing a timer consumes
  it from the live set (its Map entry may go stale, exactly as a spent
  NodeJS.Timeout handle does).
- Calls on the keychain and every onDidChangeSessions.fire are appended to
  logs inside AuthState, oldest first.
- The openid-client refresh call is an environment parameter
  (RefreshEnv): for a given refresh token it either yields a TokenSet or
  fails with the error message the client would throw.
- Time: AuthState.now is Date.now() in milliseconds.
-/

namespace RedHatAuth

/-- Account identity derived from ID-token claims: the label and id fields of
IToken.account. -/
structure Account where
  label : String
  id : String
deriving DecidableEq, Repr

/-- Runtime token, interface IToken of authentication-service.ts. -/
structure IToken where
  accessToken : Option String
  idToken : Option String
  expiresIn : Option Nat
  expiresAt : Option Nat
  refreshToken : String
  account : Account
  scope : String
  sessionId : String
deriving DecidableEq, Repr

/-- Account shape inside the persisted blob: label and displayName optional,
id required (interface IStoredSession.account). -/
structure StoredAccount where
  label : Option String
  displayName : Option String
  id : String
deriving DecidableEq, Repr

/-- Persisted session entry, interface IStoredSession. -/
structure IStoredSession where
  id : String
  refreshToken : String
  scope : String
  account : StoredAccount
deriving DecidableEq, Repr

/-- Session object delivered to subscribers (RedHatAuthenticationSession).
The accessToken field is Option because convertToSessionSync forwards a
possibly undefined access token through a non-null assertion. -/
structure Session where
  id : String
  accessToken : Option String
  idToken : Option String
  account : Account
  scopes : List String
deriving DecidableEq, Repr

/-- One payload of onDidChangeSessions.fire. -/
structure ChangeEvent where
  added : List Session
  removed : List Session
  changed : List Session
deriving DecidableEq, Repr

/-- A call made on the keychain: setToken with the serialized blob, or
deleteToken. -/
inductive KeychainOp where
  | setTok : String → KeychainOp
  | deleteTok : KeychainOp
deriving DecidableEq, Repr

/-- Which callback a scheduled setTimeout would run. -/
inductive TimerKind where
  | proactive : TimerKind
  | retry : Nat → TimerKind
  | poll : TimerKind
deriving DecidableEq, Repr

/-- An armed, not yet cancelled or fired setTimeout. delayMs is the delay
passed to setTimeout; deadline is the arming time plus the delay. -/
structure TimerRec where
  tid : Nat
  sessionId : String
  kind : TimerKind
  delayMs : Int
  deadline : Int
deriving DecidableEq, Repr

/-- The mutable state of RedHatAuthenticationService plus the logs of
observable effects. -/
structure AuthState where
  tokens : List IToken
  refreshTimeouts : List (String × Nat)
  liveTimers : List TimerRec
  nextTimerId : Nat
  now : Nat
  events : List ChangeEvent
  keychainOps : List KeychainOp
deriving DecidableEq, Repr

/-- Fields of an openid-client TokenSet that convertToken reads, with the
claims sub, preferred_username and email inlined. -/
structure TokenSet where
  expires_in : Option Nat
  id_token : Option String
  access_token : Option String
  refresh_token : String
  session_state : String
  sub : String
  preferred_username : Option String
  email : Option String
deriving DecidableEq, Repr

/-- Environment for client.refresh: per refresh token, a TokenSet or the
error message the client rejects with. -/
def RefreshEnv : Type := String → Except String TokenSet

/-- The exported constant REFRESH_NETWORK_FAILURE. -/
def REFRESH_NETWORK_FAILURE : String := "Network failure"

/-- JavaScript truthiness of an optional string: undefined and the empty
string are falsy. -/
def jsTruthyStr : Option String → Bool
  | none => false
  | some s => !(s == "")

/-- JavaScript truthiness of an optional number: undefined and 0 are falsy. -/
def jsTruthyNat : Option Nat → Bool
  | none => false
  | some n => !(n == 0)

/-- JavaScript a or b or c over strings, as in the account label derivation. -/
def jsOrStr (a b : Option String) (c : String) : String :=
  if jsTruthyStr a then a.getD "" else if jsTruthyStr b then b.getD "" else c

/-- Lookup in the _refreshTimeouts Map. -/
def mapLookup (m : List (String × Nat)) (k : String) : Option Nat :=
  (m.find? (fun p => p.1 == k)).map (fun p => p.2)

/-- Map.delete. -/
def mapErase (m : List (String × Nat)) (k : String) : List (String × Nat) :=
  m.filter (fun p => !(p.1 == k))

/-- Map.set: replace the entry in place when the key is present, append
otherwise. -/
def mapSet (m : List (String × Nat)) (k : String) (v : Nat) : List (String × Nat) :=
  if (m.find? (fun p => p.1 == k)).isSome then
    m.map (fun p => if p.1 == k then (k, v) else p)
  else m ++ [(k, v)]

/-- clearSessionTimeout: when the Map holds a handle for the session, call
clearTimeout on it (dropping it from the live set) and delete the entry. -/
def clearSessionTimeout (sessionId : String) (s : AuthState) : AuthState :=
  match mapLookup s.refreshTimeouts sessionId with
  | some h =>
      { s with liveTimers := s.liveTimers.filter (fun t => !(t.tid == h)),
               refreshTimeouts := mapErase s.refreshTimeouts sessionId }
  | none => s

/-- Model of this._refreshTimeouts.set(sessionId, setTimeout(cb, delayMs)):
a fresh handle is armed and recorded in the Map. -/
def armTimer (sessionId : String) (kind : TimerKind) (delayMs : Int) (s : AuthState) : AuthState :=
  let t : TimerRec :=
    { tid := s.nextTimerId, sessionId := sessionId, kind := kind,
      delayMs := delayMs, deadline := (s.now : Int) + delayMs }
  { s with liveTimers := s.liveTimers ++ [t],
           refreshTimeouts := mapSet s.refreshTimeouts sessionId t.tid,
           nextTimerId := s.nextTimerId + 1 }

/-- A fired timeout is spent: it leaves the live set (its Map entry may
remain, stale, until the next clearSessionTimeout). -/
def consumeTimer (tid : Nat) (s : AuthState) : AuthState :=
  { s with liveTimers := s.liveTimers.filter (fun t => !(t.tid == tid)) }

/-- Record one onDidChangeSessions.fire payload. -/
def fireEvent (e : ChangeEvent) (s : AuthState) : AuthState :=
  { s with events := s.events ++ [e] }

/-- Split a character list at every occurrence of the separator, keeping
empty pieces, as the JavaScript split with a one character separator does. -/
def splitOnChar (c : Char) : List Char → List (List Char)
  | [] => [[]]
  | x :: xs =>
      let r := splitOnChar c xs
      if x == c then [] :: r
      else
        match r with
        | [] => [[x]]
        | y :: ys => (x :: y) :: ys

/-- The JavaScript str.split(sep) for a one character separator. -/
def jsSplit (sep : Char) (s : String) : List String :=
  (splitOnChar sep s.data).map (fun cs => String.mk cs)

/-- convertToSessionSync. -/
def convertToSessionSync (token : IToken) : Session :=
  { id := token.sessionId
    accessToken := token.accessToken
    idToken := token.idToken
    account := token.account
    scopes := jsSplit (Char.ofNat 32) token.scope }

/-- The projection performed inside storeTokenData on each token. -/
def stripToken (token : IToken) : IStoredSession :=
  { id := token.sessionId
    refreshToken := token.refreshToken
    scope := token.scope
    account := { label := some token.account.label, displayName := none, id := token.account.id } }

/-- JSON string escaping for the serializer (backslash and quote). -/
def jsonEscape (s : String) : String :=
  String.join (s.data.map (fun c =>
    if c == '\\' then "\\\\" else if c == '\"' then "\\\"" else String.singleton c))

/-- A JSON string literal. -/
def jsonStr (s : String) : String := "\"" ++ jsonEscape s ++ "\""

/-- JSON.stringify of a stored account object; undefined fields are omitted. -/
def jsonOfStoredAccount (a : StoredAccount) : String :=
  "\x7b" ++
    (match a.label with
     | some l => "\"label\":" ++ jsonStr l ++ ","
     | none => "") ++
    (match a.displayName with
     | some d => "\"displayName\":" ++ jsonStr d ++ ","
     | none => "") ++
    "\"id\":" ++ jsonStr a.id ++ "\x7d"

/-- JSON.stringify of one stored session object. -/
def jsonOfStoredSession (ss : IStoredSession) : String :=
  "\x7b\"id\":" ++ jsonStr ss.id ++
    ",\"refreshToken\":" ++ jsonStr ss.refreshToken ++
    ",\"scope\":" ++ jsonStr ss.scope ++
    ",\"account\":" ++ jsonOfStoredAccount ss.account ++ "\x7d"

/-- JSON.stringify of the serialized session array. -/
def jsonOfStoredSessions (l : List IStoredSession) : String :=
  "[" ++ String.intercalate "," (l.map jsonOfStoredSession) ++ "]"

/-- storeTokenData: project each token to its IStoredSession shape and write
the JSON blob through keychain.setToken. -/
def storeTokenData (s : AuthState) : AuthState :=
  let serializedData := s.tokens.map stripToken
  { s with keychainOps := s.keychainOps ++ [KeychainOp.setTok (jsonOfStoredSessions serializedData)] }

/-- The findIndex plus splice(i, 1, token) upsert inside setToken. -/
def upsertToken (token : IToken) (tokens : List IToken) : List IToken :=
  match tokens.findIdx? (fun t => t.sessionId == token.sessionId) with
  | some i => tokens.set i token
  | none => tokens ++ [token]

/-- setToken: upsert the token, cancel any existing timer of the session,
arm the proactive refresh timer at 1000 times (expiresIn - 30) ms when
expiresIn is truthy, and persist. The body of the armed callback is
modelled separately by proactiveRefreshCallback. -/
def setToken (token : IToken) (scope : String) (s : AuthState) : AuthState :=
  let s1 := { s with tokens := upsertToken token s.tokens }
  let s2 := clearSessionTimeout token.sessionId s1
  let s3 :=
    if jsTruthyNat token.expiresIn then
      armTimer token.sessionId TimerKind.proactive
        (1000 * ((token.expiresIn.getD 0 : Int) - 30)) s2
    else s2
  storeTokenData s3

/-- convertToken: build an IToken from a TokenSet; expiresAt only when
expires_in is truthy; sessionId falls back to session_state when existingId
is falsy; label is preferred_username or email or the fixed placeholder. -/
def convertToken (now : Nat) (tokenSet : TokenSet) (scope : String) (existingId : Option String) : IToken :=
  { expiresIn := tokenSet.expires_in
    expiresAt :=
      if jsTruthyNat tokenSet.expires_in then some (now + tokenSet.expires_in.getD 0 * 1000)
      else none
    idToken := tokenSet.id_token
    accessToken := tokenSet.access_token
    refreshToken := tokenSet.refresh_token
    sessionId := if jsTruthyStr existingId then existingId.getD "" else tokenSet.session_state
    scope := scope
    account :=
      { id := tokenSet.sub
        label := jsOrStr tokenSet.preferred_username tokenSet.email "user@example.com" } }

/-- refreshToken: call client.refresh; on success convert the TokenSet and
register it through setToken, returning the token; on ANY failure of the
client the catch block rethrows the fixed message Refreshing token failed
(the incoming error, network or not, is discarded). -/
def refreshTokenOp (env : RefreshEnv) (refreshTok scope sessionId : String) (s : AuthState) :
    AuthState × Except String IToken :=
  match env refreshTok with
  | Except.ok ts =>
      let token := convertToken s.now ts scope (some sessionId)
      (setToken token scope s, Except.ok token)
  | Except.error _ => (s, Except.error "Refreshing token failed")

/-- removeInMemorySessionData: findIndex the token, splice it out when
found, always clearSessionTimeout, and return the removed token if any. -/
def removeInMemorySessionData (sessionId : String) (s : AuthState) : AuthState × Option IToken :=
  match s.tokens.findIdx? (fun t => t.sessionId == sessionId) with
  | some i =>
      (clearSessionTimeout sessionId { s with tokens := s.tokens.eraseIdx i }, s.tokens[i]?)
  | none => (clearSessionTimeout sessionId s, none)

/-- removeSession: drop the in-memory data, then delete the keychain blob
when the list became empty or rewrite it otherwise; return the removed
session, converted, if one existed. -/
def removeSessionOp (sessionId : String) (s : AuthState) : AuthState × Option Session :=
  let p := removeInMemorySessionData sessionId s
  let session := p.2.map convertToSessionSync
  if p.1.tokens.length == 0 then
    ({ p.1 with keychainOps := p.1.keychainOps ++ [KeychainOp.deleteTok] }, session)
  else
    (storeTokenData p.1, session)

/-- clearSessions: empty the token list, delete the keychain blob, call
clearTimeout on every handle held by the Map, and clear the Map. -/
def clearSessions (s : AuthState) : AuthState :=
  let tracked := s.refreshTimeouts.map (fun p => p.2)
  { s with tokens := [],
           keychainOps := s.keychainOps ++ [KeychainOp.deleteTok],
           liveTimers := s.liveTimers.filter (fun t => !(tracked.contains t.tid)),
           refreshTimeouts := [] }

/-- pollForReconnect: cancel any existing timer of the session and arm the
30 minute poll timer. The callback (retry the refresh, reschedule on
failure) is collapsed into handleRefreshNetworkError style firing where the
claims need it; the arming itself is what this definition captures. -/
def pollForReconnect (sessionId refreshTok scope : String) (s : AuthState) : AuthState :=
  let s1 := clearSessionTimeout sessionId s
  armTimer sessionId TimerKind.poll (1000 * 60 * 30) s1

/-- The attempts = 1 block of handleRefreshNetworkError: find the token of
the session, clear its accessToken in place and fire a changed event with
the cleared token. -/
def markUnavailable (sessionId : String) (s : AuthState) : AuthState :=
  match s.tokens.findIdx? (fun t => t.sessionId == sessionId) with
  | some i =>
      match s.tokens[i]? with
      | some tok =>
          let tok1 := { tok with accessToken := none }
          fireEvent { added := [], removed := [], changed := [convertToSessionSync tok1] }
            { s with tokens := s.tokens.set i tok1 }
      | none => s
  | none => s

/-- handleRefreshNetworkError with the waits collapsed: each recursion level
is one attempt counter value. At attempts = 3 it resolves false without
scheduling. At attempts = 1 it runs markUnavailable. It then arms a retry
timer with delay 1000 times 5 times attempts squared ms, lets it fire
(consuming it), runs the refresh and either resolves true or recurses with
attempts + 1. The extra fuel argument only bounds the recursion for Lean;
every call in the source starts at attempts = 1 and reaches attempts = 3
within fuel 3. The third component of the result lists the delays (ms) of
the armed retry timers, in order. -/
def handleRefreshNetworkError (env : RefreshEnv) (sessionId refreshTok scope : String) :
    Nat → Nat → AuthState → AuthState × Bool × List Int
  | 0, _, s => (s, false, [])
  | fuel + 1, attempts, s =>
    if attempts == 3 then (s, false, [])
    else
      let s1 := if attempts == 1 then markUnavailable sessionId s else s
      let delayBeforeRetry : Int := 5 * attempts * attempts
      let s3 := armTimer sessionId (TimerKind.retry attempts) (1000 * delayBeforeRetry)
                  (clearSessionTimeout sessionId s1)
      let s4 := consumeTimer s3.nextTimerId.pred s3
      match refreshTokenOp env refreshTok scope sessionId s4 with
      | (s5, Except.ok _) => (s5, true, [1000 * delayBeforeRetry])
      | (s5, Except.error _) =>
          let r := handleRefreshNetworkError env sessionId refreshTok scope fuel (attempts + 1) s5
          (r.1, r.2.1, (1000 * delayBeforeRetry) :: r.2.2)

/-- The body of the proactive refresh timer armed by setToken: refresh; on
success fire changed; on failure branch on whether the caught message is
REFRESH_NETWORK_FAILURE (retry controller, then poll when it resolves
false) or not (removeSession and fire removed). -/
def proactiveRefreshCallback (env : RefreshEnv) (token : IToken) (scope : String) (s : AuthState) :
    AuthState :=
  match refreshTokenOp env token.refreshToken scope token.sessionId s with
  | (s1, Except.ok refreshedToken) =>
      fireEvent { added := [], removed := [], changed := [convertToSessionSync refreshedToken] } s1
  | (s1, Except.error msg) =>
      if msg == REFRESH_NETWORK_FAILURE then
        let r := handleRefreshNetworkError env token.sessionId token.refreshToken scope 3 1 s1
        if r.2.1 then r.1
        else pollForReconnect token.sessionId token.refreshToken token.scope r.1
      else
        let p := removeSessionOp token.sessionId s1
        fireEvent { added := [], removed := [convertToSessionSync token], changed := [] } p.1

/-- IResolvedToken. -/
structure IResolvedToken where
  accessToken : String
  idToken : Option String
deriving DecidableEq, Repr

/-- Equality of refresh results is decidable (needed to evaluate the
embedding on concrete inputs). -/
instance {α : Type _} [DecidableEq α] : DecidableEq (Except String α) := fun a b =>
  match a, b with
  | Except.ok x, Except.ok y =>
      if h : x = y then isTrue (by rw [h])
      else isFalse (by intro hc; cases hc; exact h rfl)
  | Except.error x, Except.error y =>
      if h : x = y then isTrue (by rw [h])
      else isFalse (by intro hc; cases hc; exact h rfl)
  | Except.ok _, Except.error _ => isFalse (by intro hc; cases hc)
  | Except.error _, Except.ok _ => isFalse (by intro hc; cases hc)

/-- The condition of the first branch of resolveAccessAndIdTokens: the
access token is truthy and expiresAt is falsy or strictly later than now. -/
def servesFromCache (token : IToken) (s : AuthState) : Bool :=
  jsTruthyStr token.accessToken &&
    (!(jsTruthyNat token.expiresAt) || decide (token.expiresAt.getD 0 > s.now))

/-- resolveAccessAndIdTokens: return the cached access token when it is
truthy and expiresAt is falsy or strictly later than now; otherwise refresh
and return the new pair when its accessToken is truthy; in every other case
(refresh failure, or a refreshed token without access token) throw the
fixed message Unavailable due to network problems. -/
def resolveAccessAndIdTokens (env : RefreshEnv) (token : IToken) (s : AuthState) :
    AuthState × Except String IResolvedToken :=
  if servesFromCache token s then
    (s, Except.ok { accessToken := token.accessToken.getD "", idToken := token.idToken })
  else
    match refreshTokenOp env token.refreshToken token.scope token.sessionId s with
    | (s1, Except.ok refreshedToken) =>
        if jsTruthyStr refreshedToken.accessToken then
          (s1, Except.ok { accessToken := refreshedToken.accessToken.getD "",
                           idToken := refreshedToken.idToken })
        else (s1, Except.error "Unavailable due to network problems")
    | (s1, Except.error _) => (s1, Except.error "Unavailable due to network problems")

/-- convertToSession: resolve the access and id tokens (possibly refreshing)
and build the session object. -/
def convertToSession (env : RefreshEnv) (token : IToken) (s : AuthState) :
    AuthState × Except String Session :=
  match resolveAccessAndIdTokens env token s with
  | (s1, Except.ok resolved) =>
      (s1, Except.ok { id := token.sessionId, accessToken := some resolved.accessToken,
                       idToken := resolved.idToken, account := token.account,
                       scopes := jsSplit (Char.ofNat 32) token.scope })
  | (s1, Except.error msg) => (s1, Except.error msg)

/-- Promise.all over convertToSession, sequentialized; any rejection rejects
the whole list. -/
def convertAll (env : RefreshEnv) : List IToken → AuthState → AuthState × Except String (List Session)
  | [], s => (s, Except.ok [])
  | token :: rest, s =>
    match convertToSession env token s with
    | (s1, Except.ok sess) =>
        match convertAll env rest s1 with
        | (s2, Except.ok sessions) => (s2, Except.ok (sess :: sessions))
        | (s2, Except.error msg) => (s2, Except.error msg)
    | (s1, Except.error msg) => (s1, Except.error msg)

/-- The canonical scope string: sort the scope list and join with single
spaces, as scopes.sort().join of the source (string order). -/
def canonicalScope (scopes : List String) : String :=
  String.intercalate " " (List.insertionSort (fun a b => a ≤ b) scopes)

/-- The filter getSessions applies when given scopes: exact equality of the
stored scope string with the canonicalized input. -/
def matchingTokens (scopes : List String) (s : AuthState) : List IToken :=
  s.tokens.filter (fun token => token.scope == canonicalScope scopes)

/-- getSessions: all sessions, or exactly those whose scope string equals
the canonicalized input. -/
def getSessions (env : RefreshEnv) (scopes : Option (List String)) (s : AuthState) :
    AuthState × Except String (List Session) :=
  match scopes with
  | none => convertAll env s.tokens s
  | some sc => convertAll env (matchingTokens sc s) s

/-- A parsed keychain blob: none models an absent blob, some (Except.error)
a present blob on which JSON.parse throws, some (Except.ok sessions) a
well-formed blob. -/
def ParsedBlob : Type := Option (Except Unit (List IStoredSession))

/-- Phase two of checkForUpdates: this._tokens.map over the live array while
removeSession splices it. Array.prototype.map fixes the length up front,
reads the element at each index at visit time and skips indices that no
longer exist; the splice inside removeSession runs synchronously before the
next index is visited, so a removal shifts the unvisited tail left and the
element that lands on the already visited index is skipped. The first
argument counts the remaining visits: it starts at the original length
while the second argument, the index, starts at 0. -/
def checkRemovalsFrom (sessions : List IStoredSession) :
    Nat → Nat → AuthState → List Session → AuthState × List Session
  | 0, _, s, removed => (s, removed)
  | remaining + 1, k, s, removed =>
      match s.tokens[k]? with
      | some token =>
          if sessions.any (fun ss => token.scope == ss.scope && token.sessionId == ss.id) then
            checkRemovalsFrom sessions remaining (k + 1) s removed
          else
            let p := removeSessionOp token.sessionId s
            checkRemovalsFrom sessions remaining (k + 1) p.1
              (removed ++ [convertToSessionSync token])
      | none => checkRemovalsFrom sessions remaining (k + 1) s removed

/-- Phase one completions of checkForUpdates: for every stored session that
did not match an existing token (checked up front against the original
list) and has a truthy refresh token, run the refresh; successes are
collected as added, a network classified failure is skipped silently, any
other failure triggers removeSession of that id. -/
def refreshAdditions (env : RefreshEnv) : List IStoredSession → AuthState → AuthState × List Session
  | [], s => (s, [])
  | ss :: rest, s =>
    match refreshTokenOp env ss.refreshToken ss.scope ss.id s with
    | (s1, Except.ok token) =>
        let r := refreshAdditions env rest s1
        (r.1, convertToSessionSync token :: r.2)
    | (s1, Except.error msg) =>
        let s2 := if msg == REFRESH_NETWORK_FAILURE then s1 else (removeSessionOp ss.id s1).1
        refreshAdditions env rest s2

/-- checkForUpdates. The matchesExisting tests of phase one all run
synchronously against the original token list; the phase two removals run
synchronously before any phase one refresh resolves, so the model performs
them first; the single event fires at the end when added or removed is
nonempty. A present but unparseable blob converts every current token to a
removed session, clears everything and fires once; an absent blob empties
the list and cancels the tracked timers when the list was nonempty. -/
def checkForUpdates (env : RefreshEnv) (blob : ParsedBlob) (s : AuthState) : AuthState :=
  match blob with
  | some (Except.ok sessions) =>
      let pending := sessions.filter (fun ss =>
        !(s.tokens.any (fun token => token.scope == ss.scope && token.sessionId == ss.id)) &&
        !(ss.refreshToken == ""))
      let p := checkRemovalsFrom sessions s.tokens.length 0 s []
      let q := refreshAdditions env pending p.1
      if !(q.2.length == 0) || !(p.2.length == 0) then
        fireEvent { added := q.2, removed := p.2, changed := [] } q.1
      else q.1
  | some (Except.error _) =>
      let removed := s.tokens.map convertToSessionSync
      let s1 := clearSessions s
      if !(removed.length == 0) then
        fireEvent { added := [], removed := removed, changed := [] } s1
      else s1
  | none =>
      if !(s.tokens.length == 0) then
        let removed := s.tokens.map convertToSessionSync
        let tracked := s.refreshTimeouts.map (fun p => p.2)
        let s1 := { s with tokens := [],
                           liveTimers := s.liveTimers.filter (fun t => !(tracked.contains t.tid)),
                           refreshTimeouts := [] }
        fireEvent { added := [], removed := removed, changed := [] } s1
      else s

/-- The per session restore loop of the startup path: skip sessions with a
falsy refresh token; otherwise refresh; on a network classified failure run
the retry controller and, when it resolves false, push the placeholder
token (accessToken undefined) and start the 30 minute poll; on any other
failure removeSession. -/
def restoreSessions (env : RefreshEnv) : List IStoredSession → AuthState → AuthState
  | [], s => s
  | ss :: rest, s =>
      let s1 :=
        if ss.refreshToken == "" then s
        else
          match refreshTokenOp env ss.refreshToken ss.scope ss.id s with
          | (sa, Except.ok _) => sa
          | (sa, Except.error msg) =>
            if msg == REFRESH_NETWORK_FAILURE then
              let r := handleRefreshNetworkError env ss.id ss.refreshToken ss.scope 3 1 sa
              if r.2.1 then r.1
              else
                let placeholder : IToken :=
                  { accessToken := none, idToken := none, expiresIn := none, expiresAt := none,
                    refreshToken := ss.refreshToken,
                    account :=
                      { label :=
                          match ss.account.label with
                          | some l => l
                          | none => ss.account.displayName.getD ""
                        id := ss.account.id }
                    scope := ss.scope, sessionId := ss.id }
                let sb := { r.1 with tokens := r.1.tokens ++ [placeholder] }
                pollForReconnect ss.id ss.refreshToken ss.scope sb
            else (removeSessionOp ss.id sa).1
      restoreSessions env rest s1

/-- The startup path of the service: absent blob does nothing; a present
blob that fails to parse hits the catch block, which calls clearSessions; a
parsed blob is restored session by session. -/
def initializeOp (env : RefreshEnv) (blob : ParsedBlob) (s : AuthState) : AuthState :=
  match blob with
  | none => s
  | some (Except.error _) => clearSessions s
  | some (Except.ok sessions) => restoreSessions env sessions s

/-- The freshly built service state: no tokens, no timers, no logs. -/
def initialState : AuthState :=
  { tokens := [], refreshTimeouts := [], liveTimers := [], nextTimerId := 0,
    now := 0, events := [], keychainOps := [] }

/-- An environment whose refresh call always rejects, with exactly the
message of the REFRESH_NETWORK_FAILURE constant: the strongest possible
network classification of the underlying failure. -/
def envNetFail : RefreshEnv := fun _ => Except.error "Network failure"

/-- A concrete registered token. -/
def tokA : IToken :=
  { accessToken := some "atA", idToken := none, expiresIn := none, expiresAt := none,
    refreshToken := "rA", account := { label := "A", id := "idA" }, scope := "openid",
    sessionId := "sA" }

/-- A second concrete registered token with the same scope. -/
def tokB : IToken :=
  { accessToken := some "atB", idToken := none, expiresIn := none, expiresAt := none,
    refreshToken := "rB", account := { label := "B", id := "idB" }, scope := "openid",
    sessionId := "sB" }

/-- The stored form of tokA. -/
def ssA : IStoredSession :=
  { id := "sA", refreshToken := "rA", scope := "openid",
    account := { label := some "A", displayName := none, id := "idA" } }

/-- State holding only tokA. -/
def stA : AuthState := { initialState with tokens := [tokA] }

/-- State holding tokA then tokB. -/
def stAB : AuthState := { initialState with tokens := [tokA, tokB] }

/-- A token with a cached access token and an expiresAt of 0: JavaScript
treats the 0 as falsy in the cache test. -/
def tokZeroExpiry : IToken :=
  { accessToken := some "at0", idToken := none, expiresIn := none, expiresAt := some 0,
    refreshToken := "r0", account := { label := "Z", id := "idZ" }, scope := "openid",
    sessionId := "sZ" }

/-- State whose clock is past the zero expiry. -/
def stLater : AuthState := { initialState with now := 1 }

/-! Timer bookkeeping invariant.

Every live setTimeout handle is tracked by the _refreshTimeouts Map, the
Map binds each sessionId at most once, and the handle counter is fresh.
These are the properties the cancel-then-replace discipline of the source
maintains; at most one live timer per session follows from them. -/

/-- The live timers of one session. -/
def timersFor (sid : String) (s : AuthState) : List TimerRec :=
  s.liveTimers.filter (fun t => t.sessionId == sid)

/-- The handles the Map currently holds. -/
def trackedHandles (s : AuthState) : List Nat :=
  s.refreshTimeouts.map (fun p => p.2)

/-- Bookkeeping invariant of the timer machinery. -/
structure TimerInv (s : AuthState) : Prop where
  keysNodup : (s.refreshTimeouts.map Prod.fst).Nodup
  liveTracked : ∀ t ∈ s.liveTimers, (t.sessionId, t.tid) ∈ s.refreshTimeouts
  liveFresh : ∀ t ∈ s.liveTimers, t.tid < s.nextTimerId
  mapFresh : ∀ p ∈ s.refreshTimeouts, p.2 < s.nextTimerId
  liveIdsNodup : (s.liveTimers.map TimerRec.tid).Nodup

/-- Each sessionId has at most one live timer. -/
def atMostOneTimer (s : AuthState) : Prop :=
  ∀ sid, (timersFor sid s).length ≤ 1

theorem mapLookup_eq_of_mem {m : List (String × Nat)} {k : String} {v : Nat}
    (hn : (m.map Prod.fst).Nodup) (hv : (k, v) ∈ m) : mapLookup m k = some v := by
  induction m with
  | nil => cases hv
  | cons p rest ih =>
    simp only [List.map_cons, List.nodup_cons] at hn
    rcases List.mem_cons.mp hv with h | h
    · subst h
      simp [mapLookup, List.find?_cons]
    · by_cases hk : p.1 == k
      · exfalso
        apply hn.1
        have : k ∈ rest.map Prod.fst := List.mem_map_of_mem Prod.fst h
        rwa [show p.1 = k from by simpa using hk]
      · have := ih hn.2 h
        simpa [mapLookup, List.find?_cons, hk] using this

theorem not_mem_of_mapLookup_eq_none {m : List (String × Nat)} {k : String}
    (h : mapLookup m k = none) : ∀ v, (k, v) ∉ m := by
  intro v hv
  simp only [mapLookup, Option.map_eq_none', List.find?_eq_none] at h
  have := h _ hv
  simp at this

theorem mapLookup_eq_none_of_not_key {m : List (String × Nat)} {k : String}
    (h : k ∉ m.map Prod.fst) : mapLookup m k = none := by
  simp only [mapLookup, Option.map_eq_none', List.find?_eq_none]
  intro p hp hk
  exact h (List.mem_map.mpr ⟨p, hp, by simpa using hk⟩)

theorem key_not_mem_mapErase (m : List (String × Nat)) (k : String) :
    k ∉ (mapErase m k).map Prod.fst := by
  intro h
  rcases List.mem_map.mp h with ⟨p, hp, hpk⟩
  have := List.of_mem_filter hp
  simp [hpk] at this

theorem mapErase_keys_sublist (m : List (String × Nat)) (k : String) :
    ((mapErase m k).map Prod.fst).Sublist (m.map Prod.fst) :=
  List.Sublist.map Prod.fst (List.filter_sublist m)

/-- Fields untouched by clearSessionTimeout. -/
theorem clearSessionTimeout_frame (sid : String) (s : AuthState) :
    (clearSessionTimeout sid s).tokens = s.tokens ∧
    (clearSessionTimeout sid s).nextTimerId = s.nextTimerId ∧
    (clearSessionTimeout sid s).now = s.now ∧
    (clearSessionTimeout sid s).events = s.events ∧
    (clearSessionTimeout sid s).keychainOps = s.keychainOps := by
  cases h : mapLookup s.refreshTimeouts sid <;> simp [clearSessionTimeout, h]

/-- After clearSessionTimeout the session has no Map entry. -/
theorem clearSessionTimeout_not_key (sid : String) (s : AuthState) :
    sid ∉ (clearSessionTimeout sid s).refreshTimeouts.map Prod.fst := by
  cases h : mapLookup s.refreshTimeouts sid with
  | none =>
      simp only [clearSessionTimeout, h]
      intro hk
      rcases List.mem_map.mp hk with ⟨p, hp, hpk⟩
      have hpp : (sid, p.2) ∈ s.refreshTimeouts := by
        have hpe : (p.1, p.2) ∈ s.refreshTimeouts := by simpa using hp
        rwa [hpk] at hpe
      exact not_mem_of_mapLookup_eq_none h p.2 hpp
  | some v =>
      simp only [clearSessionTimeout, h]
      exact key_not_mem_mapErase s.refreshTimeouts sid

/-- Under the invariant, clearSessionTimeout kills every live timer of the
session. -/
theorem clearSessionTimeout_kills {s : AuthState} (h : TimerInv s) (sid : String) :
    ∀ t ∈ (clearSessionTimeout sid s).liveTimers, t.sessionId ≠ sid := by
  intro t ht hts
  cases hl : mapLookup s.refreshTimeouts sid with
  | none =>
      rw [clearSessionTimeout, hl] at ht
      exact not_mem_of_mapLookup_eq_none hl t.tid (hts ▸ h.liveTracked t ht)
  | some v =>
      rw [clearSessionTimeout, hl] at ht
      have hmem := List.mem_filter.mp ht
      have htr := h.liveTracked t hmem.1
      rw [hts] at htr
      have := mapLookup_eq_of_mem h.keysNodup htr
      rw [hl] at this
      have hv : t.tid = v := by have hvv := this; simp at hvv; exact hvv.symm
      simp [hv] at hmem

/-- clearSessionTimeout preserves the invariant. -/
theorem timerInv_clearSessionTimeout {s : AuthState} (h : TimerInv s) (sid : String) :
    TimerInv (clearSessionTimeout sid s) := by
  cases hl : mapLookup s.refreshTimeouts sid with
  | none => simpa [clearSessionTimeout, hl] using h
  | some v =>
      rw [clearSessionTimeout, hl]
      refine ⟨?_, ?_, ?_, ?_, ?_⟩
      · exact (mapErase_keys_sublist s.refreshTimeouts sid).nodup h.keysNodup
      · intro t ht
        have hmem := List.mem_filter.mp ht
        have htr := h.liveTracked t hmem.1
        have hne : t.sessionId ≠ sid := by
          intro hts
          rw [hts] at htr
          have hlk := mapLookup_eq_of_mem h.keysNodup htr
          rw [hl] at hlk
          have hv : t.tid = v := by simp at hlk; exact hlk.symm
          simp [hv] at hmem
        exact List.mem_filter.mpr ⟨htr, by simpa using hne⟩
      · intro t ht
        exact h.liveFresh t (List.mem_filter.mp ht).1
      · intro p hp
        exact h.mapFresh p (List.mem_filter.mp hp).1
      · exact (List.Sublist.map TimerRec.tid (List.filter_sublist _)).nodup h.liveIdsNodup

/-- Monotonicity: shrinking the live set while keeping the Map and not
shrinking the counter preserves the invariant. -/
theorem timerInv_mono {s s' : AuthState} (h : TimerInv s)
    (hl : s'.liveTimers.Sublist s.liveTimers)
    (hm : s'.refreshTimeouts = s.refreshTimeouts)
    (hn : s.nextTimerId ≤ s'.nextTimerId) : TimerInv s' := by
  refine ⟨?_, ?_, ?_, ?_, ?_⟩
  · rw [hm]; exact h.keysNodup
  · intro t ht; rw [hm]; exact h.liveTracked t (hl.subset ht)
  · intro t ht; exact lt_of_lt_of_le (h.liveFresh t (hl.subset ht)) hn
  · intro p hp; rw [hm] at hp; exact lt_of_lt_of_le (h.mapFresh p hp) hn
  · exact (hl.map TimerRec.tid).nodup h.liveIdsNodup

theorem timerInv_tokens {s : AuthState} (h : TimerInv s) (tks : List IToken) :
    TimerInv { s with tokens := tks } :=
  timerInv_mono h (List.Sublist.refl _) rfl (le_refl _)

theorem timerInv_fireEvent {s : AuthState} (h : TimerInv s) (e : ChangeEvent) :
    TimerInv (fireEvent e s) :=
  timerInv_mono h (List.Sublist.refl _) rfl (le_refl _)

theorem timerInv_storeTokenData {s : AuthState} (h : TimerInv s) :
    TimerInv (storeTokenData s) :=
  timerInv_mono h (List.Sublist.refl _) rfl (le_refl _)

theorem timerInv_consumeTimer {s : AuthState} (h : TimerInv s) (tid : Nat) :
    TimerInv (consumeTimer tid s) :=
  timerInv_mono h (List.filter_sublist _) rfl (le_refl _)

/-- Arming a fresh timer for a session absent from the Map preserves the
invariant. -/
theorem timerInv_armTimer {s : AuthState} (h : TimerInv s) (sid : String)
    (hkey : sid ∉ s.refreshTimeouts.map Prod.fst) (kind : TimerKind) (d : Int) :
    TimerInv (armTimer sid kind d s) := by
  have hfind : s.refreshTimeouts.find? (fun p => p.1 == sid) = none := by
    rw [List.find?_eq_none]
    intro p hp hpk
    exact hkey (List.mem_map.mpr ⟨p, hp, by simpa using hpk⟩)
  have hset : mapSet s.refreshTimeouts sid s.nextTimerId =
      s.refreshTimeouts ++ [(sid, s.nextTimerId)] := by
    simp [mapSet, hfind]
  refine ⟨?_, ?_, ?_, ?_, ?_⟩
  · show ((mapSet s.refreshTimeouts sid s.nextTimerId).map Prod.fst).Nodup
    rw [hset, List.map_append]
    refine List.Nodup.append h.keysNodup (by simp) ?_
    intro a ha hb
    rw [List.mem_map] at hb
    rcases hb with ⟨p, hp, hpk⟩
    have : a = sid := by
      have : p = (sid, s.nextTimerId) := List.mem_singleton.mp hp
      rw [this] at hpk; exact hpk.symm
    exact hkey (this ▸ ha)
  · intro t ht
    rw [show (armTimer sid kind d s).refreshTimeouts =
          mapSet s.refreshTimeouts sid s.nextTimerId from rfl, hset]
    rcases List.mem_append.mp ht with hl | hr
    · exact List.mem_append_left _ (h.liveTracked t hl)
    · have : t = { tid := s.nextTimerId, sessionId := sid, kind := kind,
                   delayMs := d, deadline := (s.now : Int) + d } := List.mem_singleton.mp hr
      rw [this]
      exact List.mem_append_right _ (by simp)
  · intro t ht
    rcases List.mem_append.mp ht with hl | hr
    · exact Nat.lt_succ_of_lt (h.liveFresh t hl)
    · have : t = { tid := s.nextTimerId, sessionId := sid, kind := kind,
                   delayMs := d, deadline := (s.now : Int) + d } := List.mem_singleton.mp hr
      rw [this]; exact Nat.lt_succ_self _
  · intro p hp
    rw [show (armTimer sid kind d s).refreshTimeouts =
          mapSet s.refreshTimeouts sid s.nextTimerId from rfl, hset] at hp
    rcases List.mem_append.mp hp with hl | hr
    · exact Nat.lt_succ_of_lt (h.mapFresh p hl)
    · have : p = (sid, s.nextTimerId) := List.mem_singleton.mp hr
      rw [this]; exact Nat.lt_succ_self _
  · show ((s.liveTimers ++ [_]).map TimerRec.tid).Nodup
    rw [List.map_append]
    refine List.Nodup.append h.liveIdsNodup (by simp) ?_
    intro a ha hb
    rcases List.mem_map.mp ha with ⟨t, ht, hta⟩
    have hlt : a < s.nextTimerId := hta ▸ h.liveFresh t ht
    have : a = s.nextTimerId := by simpa using hb
    omega

/-- The cancel-then-replace composition the source uses on every arming. -/
theorem timerInv_clearArm {s : AuthState} (h : TimerInv s) (sid : String)
    (k : TimerKind) (d : Int) :
    TimerInv (armTimer sid k d (clearSessionTimeout sid s)) :=
  timerInv_armTimer (timerInv_clearSessionTimeout h sid) sid
    (clearSessionTimeout_not_key sid s) k d

theorem length_le_one_of_nodup_const {l : List Nat} (hn : l.Nodup) {c : Nat}
    (hc : ∀ x ∈ l, x = c) : l.length ≤ 1 := by
  match l, hn, hc with
  | [], _, _ => simp
  | [x], _, _ => simp
  | x :: y :: t, hn, hc =>
      exfalso
      have hx := hc x (by simp)
      have hy := hc y (by simp)
      have hxy : x ≠ y := by
        have hnc := List.nodup_cons.mp hn
        intro he
        exact hnc.1 (he ▸ List.mem_cons_self y t)
      exact hxy (hx.trans hy.symm)

/-- The invariant forces at most one live timer per session. -/
theorem timerInv_atMostOne {s : AuthState} (h : TimerInv s) : atMostOneTimer s := by
  intro sid
  cases hl : mapLookup s.refreshTimeouts sid with
  | none =>
      have : timersFor sid s = [] := by
        rw [timersFor, List.filter_eq_nil_iff]
        intro t ht hts
        have hsid : t.sessionId = sid := by simpa using hts
        exact not_mem_of_mapLookup_eq_none hl t.tid (hsid ▸ h.liveTracked t ht)
      simp [this]
  | some v =>
      have hall : ∀ x ∈ (timersFor sid s).map TimerRec.tid, x = v := by
        intro x hx
        rcases List.mem_map.mp hx with ⟨t, ht, htx⟩
        have hmem := List.mem_filter.mp ht
        have hsid : t.sessionId = sid := by simpa using hmem.2
        have htr := h.liveTracked t hmem.1
        rw [hsid] at htr
        have := mapLookup_eq_of_mem h.keysNodup htr
        rw [hl] at this
        have : v = t.tid := by simpa using this
        omega
      have hnd : ((timersFor sid s).map TimerRec.tid).Nodup :=
        (List.Sublist.map TimerRec.tid (List.filter_sublist _)).nodup h.liveIdsNodup
      have := length_le_one_of_nodup_const hnd hall
      simpa using this

theorem timerInv_markUnavailable {s : AuthState} (h : TimerInv s) (sid : String) :
    TimerInv (markUnavailable sid s) := by
  unfold markUnavailable
  split
  · split
    · exact timerInv_fireEvent (timerInv_tokens h _) _
    · exact h
  · exact h

theorem timerInv_setToken {s : AuthState} (h : TimerInv s) (token : IToken) (scope : String) :
    TimerInv (setToken token scope s) := by
  unfold setToken
  apply timerInv_storeTokenData
  by_cases hc : jsTruthyNat token.expiresIn = true
  · rw [if_pos hc]
    exact timerInv_clearArm (timerInv_tokens h _) _ _ _
  · rw [if_neg hc]
    exact timerInv_clearSessionTimeout (timerInv_tokens h _) _

theorem timerInv_refreshTokenOp {s : AuthState} (h : TimerInv s)
    (env : RefreshEnv) (rt scope sid : String) :
    TimerInv (refreshTokenOp env rt scope sid s).1 := by
  cases henv : env rt with
  | ok ts =>
      simp only [refreshTokenOp, henv]
      exact timerInv_setToken h _ _
  | error e =>
      simp only [refreshTokenOp, henv]
      exact h

theorem timerInv_pollForReconnect {s : AuthState} (h : TimerInv s) (sid rt scope : String) :
    TimerInv (pollForReconnect sid rt scope s) :=
  timerInv_clearArm h sid TimerKind.poll (1000 * 60 * 30)

theorem timerInv_handleRefresh (env : RefreshEnv) (sid rt scope : String) :
    ∀ (fuel attempts : Nat) (s : AuthState), TimerInv s →
      TimerInv (handleRefreshNetworkError env sid rt scope fuel attempts s).1 := by
  intro fuel
  induction fuel with
  | zero => intro attempts s h; exact h
  | succ n ih =>
      intro attempts s h
      rw [handleRefreshNetworkError]
      by_cases h3 : (attempts == 3) = true
      · rw [if_pos h3]; exact h
      · rw [if_neg h3]
        have h1 : TimerInv (if attempts == 1 then markUnavailable sid s else s) := by
          by_cases ha : (attempts == 1) = true
          · rw [if_pos ha]; exact timerInv_markUnavailable h sid
          · rw [if_neg ha]; exact h
        have h4 : TimerInv (consumeTimer
            (armTimer sid (TimerKind.retry attempts)
              (1000 * (5 * (attempts : Int) * (attempts : Int)))
              (clearSessionTimeout sid
                (if attempts == 1 then markUnavailable sid s else s))).nextTimerId.pred
            (armTimer sid (TimerKind.retry attempts)
              (1000 * (5 * (attempts : Int) * (attempts : Int)))
              (clearSessionTimeout sid
                (if attempts == 1 then markUnavailable sid s else s)))) :=
          timerInv_consumeTimer (timerInv_clearArm h1 sid _ _) _
        rcases hro : refreshTokenOp env rt scope sid
            (consumeTimer
              (armTimer sid (TimerKind.retry attempts)
                (1000 * (5 * (attempts : Int) * (attempts : Int)))
                (clearSessionTimeout sid
                  (if attempts == 1 then markUnavailable sid s else s))).nextTimerId.pred
              (armTimer sid (TimerKind.retry attempts)
                (1000 * (5 * (attempts : Int) * (attempts : Int)))
                (clearSessionTimeout sid
                  (if attempts == 1 then markUnavailable sid s else s)))) with ⟨s5, res⟩
        have h5 : TimerInv s5 := by
          have := timerInv_refreshTokenOp h4 env rt scope sid
          rwa [hro] at this
        cases res with
        | ok tk => simp only [hro]; exact h5
        | error e => simp only [hro]; exact ih (attempts + 1) s5 h5

theorem timerInv_removeInMemory {s : AuthState} (h : TimerInv s) (sid : String) :
    TimerInv (removeInMemorySessionData sid s).1 := by
  unfold removeInMemorySessionData
  cases hidx : s.tokens.findIdx? (fun t => t.sessionId == sid) with
  | none => exact timerInv_clearSessionTimeout h sid
  | some i => exact timerInv_clearSessionTimeout (timerInv_tokens h _) sid

theorem timerInv_removeSessionOp {s : AuthState} (h : TimerInv s) (sid : String) :
    TimerInv (removeSessionOp sid s).1 := by
  unfold removeSessionOp
  have h1 := timerInv_removeInMemory h sid
  by_cases hq : ((removeInMemorySessionData sid s).1.tokens.length == 0) = true
  · simp only [hq, if_true]
    exact timerInv_mono h1 (List.Sublist.refl _) rfl (le_refl _)
  · simp only [hq, if_false]
    exact timerInv_storeTokenData h1

theorem clearSessions_liveTimers {s : AuthState} (h : TimerInv s) :
    (clearSessions s).liveTimers = [] := by
  show s.liveTimers.filter _ = []
  rw [List.filter_eq_nil_iff]
  intro t ht
  have htr := h.liveTracked t ht
  have hmem : t.tid ∈ s.refreshTimeouts.map (fun p => p.2) :=
    List.mem_map.mpr ⟨(t.sessionId, t.tid), htr, rfl⟩
  simp [hmem]

theorem timerInv_clearSessions {s : AuthState} (h : TimerInv s) :
    TimerInv (clearSessions s) := by
  have hnil := clearSessions_liveTimers h
  refine ⟨?_, ?_, ?_, ?_, ?_⟩
  · show ((([] : List (String × Nat))).map Prod.fst).Nodup
    simp
  · intro t ht; rw [hnil] at ht; cases ht
  · intro t ht; rw [hnil] at ht; cases ht
  · intro p hp; cases hp
  · rw [hnil]; simp

/-! Characterization of the findIndex plus splice pattern. -/

theorem findIdx?_shift {α : Type _} (p : α → Bool) (l : List α) :
    ∀ i : Nat, l.findIdx? p i = (l.findIdx? p).map (fun j => j + i) := by
  induction l with
  | nil => intro i; rfl
  | cons a l ih =>
      intro i
      rw [List.findIdx?_cons, List.findIdx?_cons]
      by_cases hp : p a = true
      · simp [hp]
      · rw [if_neg hp, if_neg hp, ih (i + 1), ih 1, Option.map_map]
        cases l.findIdx? p with
        | none => rfl
        | some j => simp; omega

theorem findIdx?_none_spec {α : Type _} (p : α → Bool) (l : List α)
    (h : l.findIdx? p = none) : l.find? p = none ∧ l.eraseP p = l := by
  induction l with
  | nil => exact ⟨rfl, rfl⟩
  | cons a l ih =>
      rw [List.findIdx?_cons] at h
      by_cases hp : p a = true
      · rw [if_pos hp] at h; cases h
      · have hpf : p a = false := by revert hp; cases p a <;> simp
        rw [if_neg hp, findIdx?_shift] at h
        have hn : l.findIdx? p = none := by
          cases hfi : l.findIdx? p with
          | none => rfl
          | some j => rw [hfi] at h; cases h
        have hrec := ih hn
        refine ⟨?_, ?_⟩
        · simp [List.find?_cons, hpf, hrec.1]
        · simp [List.eraseP_cons, hpf, hrec.2]

theorem findIdx?_some_spec {α : Type _} (p : α → Bool) (l : List α) :
    ∀ i : Nat, l.findIdx? p = some i → l[i]? = l.find? p ∧ l.eraseIdx i = l.eraseP p := by
  induction l with
  | nil => intro i h; cases h
  | cons a l ih =>
      intro i h
      rw [List.findIdx?_cons] at h
      by_cases hp : p a = true
      · rw [if_pos hp] at h
        have hi : i = 0 := by cases h; rfl
        subst hi
        refine ⟨?_, ?_⟩
        · simp [List.find?_cons, hp]
        · simp [List.eraseP_cons, hp]
      · have hpf : p a = false := by revert hp; cases p a <;> simp
        rw [if_neg hp, findIdx?_shift] at h
        cases hfi : l.findIdx? p with
        | none => rw [hfi] at h; cases h
        | some j =>
            rw [hfi] at h
            have hij : i = j + 1 := by
              have hsj : some (j + 1) = some i := by simpa using h
              cases hsj; rfl
            subst hij
            have hrec := ih j hfi
            refine ⟨?_, ?_⟩
            · simp [List.getElem?_cons_succ, List.find?_cons, hpf, hrec.1]
            · simp [List.eraseP_cons, hpf, List.eraseIdx_cons_succ, hrec.2]

theorem removeInMemory_spec (sid : String) (s : AuthState) :
    (removeInMemorySessionData sid s).2 = s.tokens.find? (fun t => t.sessionId == sid) ∧
    (removeInMemorySessionData sid s).1.tokens =
      s.tokens.eraseP (fun t => t.sessionId == sid) := by
  unfold removeInMemorySessionData
  cases hidx : s.tokens.findIdx? (fun t => t.sessionId == sid) with
  | none =>
      have hs := findIdx?_none_spec _ _ hidx
      refine ⟨hs.1.symm, ?_⟩
      rw [(clearSessionTimeout_frame sid s).1, hs.2]
  | some i =>
      have hs := findIdx?_some_spec _ _ i hidx
      exact ⟨hs.1, by rw [(clearSessionTimeout_frame sid _).1]; exact hs.2⟩

theorem removeSessionOp_frame (sid : String) (s : AuthState) :
    (removeSessionOp sid s).1.tokens = (removeInMemorySessionData sid s).1.tokens ∧
    (removeSessionOp sid s).1.liveTimers = (removeInMemorySessionData sid s).1.liveTimers ∧
    (removeSessionOp sid s).2 =
      (removeInMemorySessionData sid s).2.map convertToSessionSync ∧
    (removeSessionOp sid s).1.events = (removeInMemorySessionData sid s).1.events := by
  unfold removeSessionOp
  by_cases hq : ((removeInMemorySessionData sid s).1.tokens.length == 0) = true
  · simp [hq]
  · simp only [hq, if_false]
    exact ⟨rfl, rfl, rfl, rfl⟩

theorem removeInMemory_noTimer {s : AuthState} (h : TimerInv s) (sid : String) :
    ∀ t ∈ (removeInMemorySessionData sid s).1.liveTimers, t.sessionId ≠ sid := by
  unfold removeInMemorySessionData
  cases hidx : s.tokens.findIdx? (fun t => t.sessionId == sid) with
  | none => exact clearSessionTimeout_kills h sid
  | some i => exact clearSessionTimeout_kills (timerInv_tokens h _) sid

/-! Claim theorems. -/

/-- C7: for every in-memory token list the persisted blob written by
storeTokenData is the JSON array holding exactly one entry per token,
projected to id, refreshToken, scope and account; the blob is unchanged
when every accessToken and idToken is erased first, so live credentials
never appear in the persisted data. -/
theorem persistedBlobShape (s : AuthState) :
    (storeTokenData s).keychainOps =
      s.keychainOps ++ [KeychainOp.setTok (jsonOfStoredSessions (s.tokens.map stripToken))] ∧
    (s.tokens.map stripToken).length = s.tokens.length ∧
    (∀ token ∈ s.tokens, stripToken token =
      { id := token.sessionId, refreshToken := token.refreshToken, scope := token.scope,
        account := { label := some token.account.label, displayName := none,
                     id := token.account.id } }) ∧
    (storeTokenData { s with tokens := s.tokens.map (fun t =>
        { t with accessToken := none, idToken := none }) }).keychainOps =
      (storeTokenData s).keychainOps := by
  refine ⟨rfl, List.length_map _ _, fun token _ => rfl, ?_⟩
  show s.keychainOps ++ [KeychainOp.setTok (jsonOfStoredSessions
        ((s.tokens.map (fun t => { t with accessToken := none, idToken := none })).map
          stripToken))] =
      s.keychainOps ++ [KeychainOp.setTok (jsonOfStoredSessions (s.tokens.map stripToken))]
  rw [List.map_map]
  rfl

/-- C8: canonicalization sorts the scope list and joins with single
spaces, hence permutations canonicalize identically and getSessions with a
scope filter is order independent; with a scope argument the tokens
considered are exactly those whose stored scope string equals the
canonicalized input. -/
theorem scopeCanonicalization (S1 S2 : List String) (env : RefreshEnv) (s : AuthState)
    (h : S1.Perm S2) :
    canonicalScope S1 = canonicalScope S2 ∧
    getSessions env (some S1) s = getSessions env (some S2) s ∧
    (∀ token ∈ s.tokens, (token ∈ matchingTokens S1 s ↔ token.scope = canonicalScope S1)) ∧
    (∀ token ∈ matchingTokens S1 s, token ∈ s.tokens) := by
  have hcan : canonicalScope S1 = canonicalScope S2 := by
    unfold canonicalScope
    congr 1
    have hperm : (List.insertionSort (fun a b : String => a ≤ b) S1).Perm
        (List.insertionSort (fun a b : String => a ≤ b) S2) :=
      (List.perm_insertionSort _ S1).trans (h.trans (List.perm_insertionSort _ S2).symm)
    exact @List.eq_of_perm_of_sorted String (fun a b => a ≤ b) inferInstance _ _ hperm
      (List.sorted_insertionSort _ S1) (List.sorted_insertionSort _ S2)
  refine ⟨hcan, ?_, ?_, ?_⟩
  · show convertAll env (matchingTokens S1 s) s = convertAll env (matchingTokens S2 s) s
    unfold matchingTokens
    rw [hcan]
  · intro token htok
    constructor
    · intro hm
      have := (List.mem_filter.mp hm).2
      simpa using this
    · intro hsc
      exact List.mem_filter.mpr ⟨htok, by simpa using hsc⟩
  · intro token hm
    exact (List.mem_filter.mp hm).1

/-- C1: the catch block of refreshToken rethrows every client failure as
the fixed message Refreshing token failed, which differs from the
REFRESH_NETWORK_FAILURE constant the error handlers compare against; the
network branch of the proactive refresh handler and of the startup restore
handler is therefore unreachable, and even a refresh rejected with exactly
the message Network failure removes the session and fires a removed event
instead of engaging the retry controller. -/
theorem refreshErrorClassificationCollapses :
    (∀ (msg rt scope sid : String) (s : AuthState),
        (refreshTokenOp (fun _ => Except.error msg) rt scope sid s).2 =
          Except.error "Refreshing token failed") ∧
    "Refreshing token failed" ≠ REFRESH_NETWORK_FAILURE ∧
    (proactiveRefreshCallback envNetFail tokA "openid" stA).tokens = [] ∧
    (proactiveRefreshCallback envNetFail tokA "openid" stA).events =
      [{ added := [], removed := [convertToSessionSync tokA], changed := [] }] ∧
    (proactiveRefreshCallback envNetFail tokA "openid" stA).liveTimers = [] ∧
    (restoreSessions envNetFail [ssA] initialState).tokens = [] ∧
    (restoreSessions envNetFail [ssA] initialState).liveTimers = [] := by
  refine ⟨fun msg rt scope sid s => rfl, by decide, by decide, by decide, by decide,
    by decide, by decide⟩

/-- pollForReconnect always leaves a live 30 minute timer for the session. -/
theorem pollForReconnect_arms (sid rt scope : String) (s : AuthState) :
    ∃ t ∈ (pollForReconnect sid rt scope s).liveTimers,
      t.sessionId = sid ∧ t.delayMs = 1000 * 60 * 30 := by
  unfold pollForReconnect armTimer
  exact ⟨_, List.mem_append_right _ (List.mem_singleton.mpr rfl), rfl, rfl⟩

/-- C2 counterexample: with every refresh failing, the armed retry delays
(in ms) are 5000 then 20000 — the first retry comes 5 seconds after the
triggering failure and the second 20 seconds later — not the 20 and 45
seconds the claim states. -/
theorem retryDelays_counterexample :
    (handleRefreshNetworkError envNetFail "sA" "rA" "openid" 3 1 initialState).2.2 =
      [5000, 20000] ∧
    (handleRefreshNetworkError envNetFail "sA" "rA" "openid" 3 1 initialState).2.2 ≠
      [20000, 45000] := by
  decide

/-- C2 (amended): when the refresh keeps failing, the retry controller arms
retry attempt 2 after 5 seconds and retry attempt 3 after 20 seconds
(delay 5 times n squared seconds where n counts the failures so far),
resolves false after the third consecutive failure, and the caller then
starts the 30 minute poll, so a 4th attempt comes no sooner than 30
minutes later. -/
theorem retrySchedule_spec (env : RefreshEnv) (sid rt scope : String) (s : AuthState)
    (e : String) (h : env rt = Except.error e) :
    (handleRefreshNetworkError env sid rt scope 3 1 s).2.2 = [5000, 20000] ∧
    (handleRefreshNetworkError env sid rt scope 3 1 s).2.1 = false ∧
    ∃ t ∈ (pollForReconnect sid rt scope
        (handleRefreshNetworkError env sid rt scope 3 1 s).1).liveTimers,
      t.sessionId = sid ∧ t.delayMs = 1000 * 60 * 30 := by
  have h2 : ∀ s' : AuthState, refreshTokenOp env rt scope sid s' =
      (s', Except.error "Refreshing token failed") := by
    intro s'
    simp [refreshTokenOp, h]
  refine ⟨?_, ?_, pollForReconnect_arms sid rt scope _⟩
  · simp [handleRefreshNetworkError, h2]
  · simp [handleRefreshNetworkError, h2]

theorem retrySchedule_spec_witness :
    (handleRefreshNetworkError envNetFail "sW" "rW" "openid" 3 1 initialState).2.2 =
      [5000, 20000] ∧
    (handleRefreshNetworkError envNetFail "sW" "rW" "openid" 3 1 initialState).2.1 = false ∧
    ∃ t ∈ (pollForReconnect "sW" "rW" "openid"
        (handleRefreshNetworkError envNetFail "sW" "rW" "openid" 3 1 initialState).1).liveTimers,
      t.sessionId = "sW" ∧ t.delayMs = 1000 * 60 * 30 :=
  retrySchedule_spec envNetFail "sW" "rW" "openid" initialState "Network failure" rfl

/-- C3: reconciling two locally registered sessions against a stored blob
that lost both removes and reports only the first one. The splice inside
removeSession runs synchronously during the live map iteration of phase
two, shifting the second stale entry onto the already visited index, so it
stays registered and is missing from the single change event. -/
theorem reconcileSkipsShiftedEntry :
    (checkForUpdates envNetFail (some (Except.ok [])) stAB).tokens = [tokB] ∧
    (checkForUpdates envNetFail (some (Except.ok [])) stAB).events =
      [{ added := [], removed := [convertToSessionSync tokA], changed := [] }] := by
  decide

/-- C6 counterexample: a cached access token whose expiresAt is 0 while now
is 1 is past its recorded expiry, yet resolveAccessAndIdTokens serves it
from cache (JavaScript truthiness treats the 0 like an absent expiry)
rather than refreshing and surfacing the distinguishable error of the
failing refresh. -/
theorem resolveZeroExpiry_counterexample :
    tokZeroExpiry.accessToken.isSome = true ∧
    tokZeroExpiry.expiresAt ≠ none ∧
    ¬(tokZeroExpiry.expiresAt.getD 0 > stLater.now) ∧
    (resolveAccessAndIdTokens envNetFail tokZeroExpiry stLater).2 =
      Except.ok { accessToken := "at0", idToken := none } ∧
    (resolveAccessAndIdTokens envNetFail tokZeroExpiry stLater).2 ≠
      Except.error "Unavailable due to network problems" := by
  decide

/-- C6 (amended): resolveAccessAndIdTokens serves the cached access token
exactly when it is nonempty and expiresAt is absent, zero, or strictly in
the future (the servesFromCache test); otherwise it refreshes, and a
failing refresh — as well as a refresh whose token set has no nonempty
access token — raises the fixed distinguishable message Unavailable due to
network problems instead of the raw provider error, while a refresh
carrying a nonempty access token yields the new access and id pair. -/
theorem resolveAccess_spec (env : RefreshEnv) (token : IToken) (s : AuthState) :
    (servesFromCache token s = true →
      resolveAccessAndIdTokens env token s =
        (s, Except.ok { accessToken := token.accessToken.getD "",
                        idToken := token.idToken })) ∧
    (servesFromCache token s = false →
      ∀ e, env token.refreshToken = Except.error e →
        (resolveAccessAndIdTokens env token s).2 =
          Except.error "Unavailable due to network problems") ∧
    (servesFromCache token s = false →
      ∀ ts, env token.refreshToken = Except.ok ts → jsTruthyStr ts.access_token = true →
        (resolveAccessAndIdTokens env token s).2 =
          Except.ok { accessToken := ts.access_token.getD "", idToken := ts.id_token }) ∧
    (servesFromCache token s = false →
      ∀ ts, env token.refreshToken = Except.ok ts → jsTruthyStr ts.access_token = false →
        (resolveAccessAndIdTokens env token s).2 =
          Except.error "Unavailable due to network problems") := by
  refine ⟨?_, ?_, ?_, ?_⟩
  · intro hc
    simp [resolveAccessAndIdTokens, hc]
  · intro hc e he
    simp [resolveAccessAndIdTokens, hc, refreshTokenOp, he]
  · intro hc ts hts ha
    simp [resolveAccessAndIdTokens, hc, refreshTokenOp, hts, convertToken, ha]
  · intro hc ts hts ha
    simp [resolveAccessAndIdTokens, hc, refreshTokenOp, hts, convertToken, ha]

theorem resolveAccess_spec_witness :
    resolveAccessAndIdTokens envNetFail tokA initialState =
      (initialState, Except.ok { accessToken := "atA", idToken := none }) :=
  (resolveAccess_spec envNetFail tokA initialState).1 (by decide)

theorem timerInv_initialState : TimerInv initialState := by
  refine ⟨?_, ?_, ?_, ?_, ?_⟩ <;> simp [initialState]

theorem timerInv_stA : TimerInv stA := by
  refine ⟨?_, ?_, ?_, ?_, ?_⟩ <;> simp [stA, initialState]

/-- armTimer appends exactly one live timer, carrying the fresh handle. -/
theorem armTimer_live (sid : String) (k : TimerKind) (d : Int) (x : AuthState) :
    (armTimer sid k d x).liveTimers =
      x.liveTimers ++ [{ tid := x.nextTimerId, sessionId := sid, kind := k,
                         delayMs := d, deadline := (x.now : Int) + d }] := rfl

/-- The live timers after setToken, by the branch on expiresIn. -/
theorem setToken_live (token : IToken) (scope : String) (s : AuthState) :
    (setToken token scope s).liveTimers =
      if jsTruthyNat token.expiresIn = true then
        (armTimer token.sessionId TimerKind.proactive
          (1000 * ((token.expiresIn.getD 0 : Int) - 30))
          (clearSessionTimeout token.sessionId
            { s with tokens := upsertToken token s.tokens })).liveTimers
      else
        (clearSessionTimeout token.sessionId
          { s with tokens := upsertToken token s.tokens }).liveTimers := by
  unfold setToken
  by_cases hc : jsTruthyNat token.expiresIn = true
  · simp only [hc, if_true]
    rfl
  · simp only [hc, if_false]
    rfl

/-- Registering a session replaces its timer: any live timer of that
session after setToken is the freshly armed one. -/
theorem setToken_replacesTimer {s : AuthState} (h : TimerInv s) (token : IToken)
    (scope : String) :
    ∀ t ∈ (setToken token scope s).liveTimers,
      t.sessionId = token.sessionId → t.tid = s.nextTimerId := by
  intro t ht hts
  rw [setToken_live] at ht
  by_cases hc : jsTruthyNat token.expiresIn = true
  · rw [if_pos hc, armTimer_live] at ht
    rcases List.mem_append.mp ht with hl | hr
    · exact absurd hts (clearSessionTimeout_kills (timerInv_tokens h _) _ t hl)
    · have hteq := List.mem_singleton.mp hr
      rw [hteq]
      exact (clearSessionTimeout_frame _ _).2.1
  · rw [if_neg hc] at ht
    exact absurd hts (clearSessionTimeout_kills (timerInv_tokens h _) _ t ht)

/-- C4: the timer bookkeeping invariant — Map keys unique, every live timer
tracked under its sessionId, handles fresh — is preserved by registration
(setToken), poll rescheduling, retry scheduling and removal, and it forces
at most one live timer per sessionId after each of them; moreover
registering a session that already has a timer replaces it: every surviving
timer of that session is the newly armed one. -/
theorem timerPerSessionDiscipline (s : AuthState) (h : TimerInv s) :
    (∀ token scope, TimerInv (setToken token scope s) ∧
      atMostOneTimer (setToken token scope s)) ∧
    (∀ sid rt scope, TimerInv (pollForReconnect sid rt scope s) ∧
      atMostOneTimer (pollForReconnect sid rt scope s)) ∧
    (∀ env sid rt scope fuel attempts,
      TimerInv (handleRefreshNetworkError env sid rt scope fuel attempts s).1 ∧
      atMostOneTimer (handleRefreshNetworkError env sid rt scope fuel attempts s).1) ∧
    (∀ sid, TimerInv (removeSessionOp sid s).1 ∧
      atMostOneTimer (removeSessionOp sid s).1) ∧
    (∀ token scope, ∀ t ∈ (setToken token scope s).liveTimers,
      t.sessionId = token.sessionId → t.tid = s.nextTimerId) := by
  refine ⟨?_, ?_, ?_, ?_, ?_⟩
  · intro token scope
    have hi := timerInv_setToken h token scope
    exact ⟨hi, timerInv_atMostOne hi⟩
  · intro sid rt scope
    have hi := timerInv_pollForReconnect h sid rt scope
    exact ⟨hi, timerInv_atMostOne hi⟩
  · intro env sid rt scope fuel attempts
    have hi := timerInv_handleRefresh env sid rt scope fuel attempts s h
    exact ⟨hi, timerInv_atMostOne hi⟩
  · intro sid
    have hi := timerInv_removeSessionOp h sid
    exact ⟨hi, timerInv_atMostOne hi⟩
  · intro token scope
    exact setToken_replacesTimer h token scope

theorem timerPerSessionDiscipline_witness :
    TimerInv (setToken tokB "openid" stA) ∧ atMostOneTimer (setToken tokB "openid" stA) :=
  (timerPerSessionDiscipline stA timerInv_stA).1 tokB "openid"

/-- C5: removeSession removes the first token with the sessionId, returns
its session view (none when no such token existed), and leaves no live
timer of that session behind, so no timer of the removed session can fire
at any later time. -/
theorem removeSession_spec (sid : String) (s : AuthState) (h : TimerInv s) :
    (removeSessionOp sid s).2 =
      (s.tokens.find? (fun t => t.sessionId == sid)).map convertToSessionSync ∧
    (removeSessionOp sid s).1.tokens = s.tokens.eraseP (fun t => t.sessionId == sid) ∧
    (∀ t ∈ (removeSessionOp sid s).1.liveTimers, t.sessionId ≠ sid) ∧
    (∀ time : Int, ∀ t ∈ (removeSessionOp sid s).1.liveTimers,
      t.deadline ≤ time → t.sessionId ≠ sid) := by
  have hfr := removeSessionOp_frame sid s
  have hsp := removeInMemory_spec sid s
  have hnt := removeInMemory_noTimer h sid
  refine ⟨?_, ?_, ?_, ?_⟩
  · rw [hfr.2.2.1, hsp.1]
  · rw [hfr.1, hsp.2]
  · intro t ht
    rw [hfr.2.1] at ht
    exact hnt t ht
  · intro time t ht _
    rw [hfr.2.1] at ht
    exact hnt t ht

theorem removeSession_spec_witness :
    (removeSessionOp "sA" stA).2 =
      (stA.tokens.find? (fun t => t.sessionId == "sA")).map convertToSessionSync ∧
    (removeSessionOp "sA" stA).1.tokens =
      stA.tokens.eraseP (fun t => t.sessionId == "sA") ∧
    (∀ t ∈ (removeSessionOp "sA" stA).1.liveTimers, t.sessionId ≠ "sA") ∧
    (∀ time : Int, ∀ t ∈ (removeSessionOp "sA" stA).1.liveTimers,
      t.deadline ≤ time → t.sessionId ≠ "sA") :=
  removeSession_spec "sA" stA timerInv_stA

/-- C9: a present but unparseable persisted blob on startup restores zero
sessions: the catch block clears every token, cancels all tracked timers,
clears the Map, deletes the stored blob and fires no event, so no partial
restore survives a parse failure. -/
theorem malformedStartup (env : RefreshEnv) (s : AuthState) (h : TimerInv s) :
    (initializeOp env (some (Except.error ())) s).tokens = [] ∧
    (initializeOp env (some (Except.error ())) s).liveTimers = [] ∧
    (initializeOp env (some (Except.error ())) s).refreshTimeouts = [] ∧
    (initializeOp env (some (Except.error ())) s).keychainOps =
      s.keychainOps ++ [KeychainOp.deleteTok] ∧
    (initializeOp env (some (Except.error ())) s).events = s.events := by
  refine ⟨rfl, ?_, rfl, rfl, rfl⟩
  exact clearSessions_liveTimers h

theorem malformedStartup_witness :
    (initializeOp envNetFail (some (Except.error ())) stA).tokens = [] ∧
    (initializeOp envNetFail (some (Except.error ())) stA).liveTimers = [] ∧
    (initializeOp envNetFail (some (Except.error ())) stA).refreshTimeouts = [] ∧
    (initializeOp envNetFail (some (Except.error ())) stA).keychainOps =
      stA.keychainOps ++ [KeychainOp.deleteTok] ∧
    (initializeOp envNetFail (some (Except.error ())) stA).events = stA.events :=
  malformedStartup envNetFail stA timerInv_stA

/-- C10: when the secret store holds no blob at all, a reconciliation pass
with local sessions present drops every token, cancels every tracked timer,
clears the Map, writes nothing to the keychain and fires one single event
reporting all prior sessions as removed; with no local sessions it changes
nothing and fires nothing. -/
theorem reconcileAbsentBlob (env : RefreshEnv) (s : AuthState) (h : TimerInv s) :
    (s.tokens ≠ [] →
      (checkForUpdates env none s).tokens = [] ∧
      (checkForUpdates env none s).liveTimers = [] ∧
      (checkForUpdates env none s).refreshTimeouts = [] ∧
      (checkForUpdates env none s).events =
        s.events ++ [{ added := [], removed := s.tokens.map convertToSessionSync,
                       changed := [] }] ∧
      (checkForUpdates env none s).keychainOps = s.keychainOps) ∧
    (s.tokens = [] → checkForUpdates env none s = s) := by
  constructor
  · intro hne
    have hlz : s.tokens.length ≠ 0 := by
      intro hz
      exact hne (List.length_eq_zero.mp hz)
    have hlen : (s.tokens.length == 0) = false := by
      rw [beq_eq_false_iff_ne]
      exact hlz
    have hnil : s.liveTimers.filter
        (fun t => !((s.refreshTimeouts.map (fun p => p.2)).contains t.tid)) = [] := by
      rw [List.filter_eq_nil_iff]
      intro t ht
      have hmem : t.tid ∈ s.refreshTimeouts.map (fun p => p.2) :=
        List.mem_map.mpr ⟨(t.sessionId, t.tid), h.liveTracked t ht, rfl⟩
      simp [hmem]
    have hred : checkForUpdates env none s =
        fireEvent { added := [], removed := s.tokens.map convertToSessionSync, changed := [] }
          { s with tokens := [],
                   liveTimers := s.liveTimers.filter
                     (fun t => !((s.refreshTimeouts.map (fun p => p.2)).contains t.tid)),
                   refreshTimeouts := [] } := by
      simp only [checkForUpdates, hlen, Bool.not_false, if_true]
    rw [hred]
    exact ⟨rfl, hnil, rfl, rfl, rfl⟩
  · intro hz
    simp [checkForUpdates, hz]

theorem reconcileAbsentBlob_witness :
    (checkForUpdates envNetFail none stA).tokens = [] ∧
    (checkForUpdates envNetFail none stA).liveTimers = [] ∧
    (checkForUpdates envNetFail none stA).refreshTimeouts = [] ∧
    (checkForUpdates envNetFail none stA).events =
      stA.events ++ [{ added := [], removed := stA.tokens.map convertToSessionSync,
                       changed := [] }] ∧
    (checkForUpdates envNetFail none stA).keychainOps = stA.keychainOps :=
  (reconcileAbsentBlob envNetFail stA timerInv_stA).1 (by decide)

/-- C8 witness data: the two scope orders are a swap of one another. -/
theorem scopeCanonicalization_witness :
    canonicalScope ["b", "a"] = canonicalScope ["a", "b"] ∧
    getSessions envNetFail (some ["b", "a"]) stA =
      getSessions envNetFail (some ["a", "b"]) stA ∧
    (∀ token ∈ stA.tokens,
      (token ∈ matchingTokens ["b", "a"] stA ↔
        token.scope = canonicalScope ["b", "a"])) ∧
    (∀ token ∈ matchingTokens ["b", "a"] stA, token ∈ stA.tokens) :=
  scopeCanonicalization ["b", "a"] ["a", "b"] envNetFail stA (List.Perm.swap "a" "b" [])

end RedHatAuth
